import Mathlib

/-!
Verification of the request-routing layer of a serverless CRUD service
(`src/index.mjs`).  The handler dispatches on HTTP method and path,
parses/validates bodies, issues at most one command to a DynamoDB-style
key-value store, and maps results to JSON responses.

The embedding is shallow: JavaScript objects become ordered association
lists with JS assignment semantics, the platform builtins (`JSON.parse`,
`Buffer.from(..,"base64")`, `randomUUID`, `Date.toISOString`) become
fields of an environment record, and the store client becomes an oracle
`Command → SendResult`.  The handler additionally returns the list of
store commands it issued, so that "no store call" and command-shape
properties are directly statable.
-/

/-- A JSON-compatible value.  Numbers are modelled as integers: no claim
depends on numeric semantics and the handler never computes with them. -/
inductive JValue where
  | null : JValue
  | bool : Bool → JValue
  | num : Int → JValue
  | str : String → JValue
  | arr : List JValue → JValue
  | obj : List (String × JValue) → JValue

/-- JS property assignment on an object literal: overwriting an existing
key keeps its original position, a new key is appended. -/
def jsSet (o : List (String × JValue)) (k : String) (v : JValue) :
    List (String × JValue) :=
  if o.any (fun p => p.1 = k) then
    o.map (fun p => if p.1 = k then (k, v) else p)
  else
    o ++ [(k, v)]

/-- Own enumerable string-keyed entries of a JS value, as used by object
spread and by `Object.keys`: objects expose their fields, arrays and
strings expose index-keyed elements, primitives expose nothing. -/
def jsOwnEntries : JValue → List (String × JValue)
  | .obj fs => fs
  | .arr xs => xs.enum.map (fun p => (toString p.1, p.2))
  | .str s => s.toList.enum.map (fun p => (toString p.1, .str (String.mk [p.2])))
  | _ => []

/-- JS object spread `{ ...base-literal-fields, ...v }`: the spread
source's own enumerable entries are assigned over the base in order. -/
def jsSpread (base : List (String × JValue)) (v : JValue) :
    List (String × JValue) :=
  (jsOwnEntries v).foldl (fun acc p => jsSet acc p.1 p.2) base

/-- JS `x || d` for an optional string: `undefined` and `""` are falsy. -/
def jsOr (o : Option String) (d : String) : String :=
  match o with
  | none => d
  | some s => if s = "" then d else s

/-- JS `s || d` for a plain string (`""` is falsy). -/
def jsOrStr (s d : String) : String :=
  if s = "" then d else s

/-- The inbound Lambda event fields the handler reads:
`event?.requestContext?.http?.method`, `event?.rawPath`, `event.body`,
`event.isBase64Encoded`.  Absent fields are `none`. -/
structure Event where
  method : Option String
  rawPath : Option String
  body : Option String
  isBase64Encoded : Bool

/-- The per-invocation environment: the configured table name
(`process.env.TABLE_NAME`), the value `randomUUID()` returns, the value
`new Date().toISOString()` returns, and the platform builtins
`JSON.parse` (returning `none` on a parse error, i.e. a thrown
`SyntaxError`) and base64 decoding. -/
structure Env where
  table : String
  randomUUID : String
  nowISO : String
  parseJSON : String → Option JValue
  b64decode : String → String

/-- A command sent to the DynamoDB document client.  Each constructor
carries exactly the parameters the handler passes. -/
inductive Command where
  | put : String → List (String × JValue) → Command
  | scan : String → Nat → Command
  | get : String → List (String × JValue) → Command
  | update : String → List (String × JValue) → String →
      List (String × String) → List (String × JValue) → String → String → Command
  | delete : String → List (String × JValue) → String → String → Command

/-- The fields of a successful store response that the handler reads;
absent fields (`undefined` in JS) are `none`. -/
structure SendOk where
  Items : Option (List JValue)
  Item : Option JValue
  Attributes : Option JValue

/-- A store-layer error: `name`, `message`, and the value of
`String(err)` used as the `||`-fallback for an empty message. -/
structure StoreErr where
  name : String
  message : String
  asString : String

/-- The outcome of `ddb.send`: either a response object or a thrown
error. -/
inductive SendResult where
  | ok : SendOk → SendResult
  | error : StoreErr → SendResult

/-- The fixed response headers set by the `json` helper. -/
def corsHeaders : List (String × String) :=
  [("Content-Type", "application/json"),
   ("Access-Control-Allow-Origin", "*"),
   ("Access-Control-Allow-Methods", "GET,POST,PUT,DELETE,OPTIONS"),
   ("Access-Control-Allow-Headers", "Content-Type,Authorization")]

/-- The handler's response.  `body` is kept as the structured value
passed to `JSON.stringify`; serialization is a platform builtin. -/
structure Response where
  statusCode : Nat
  headers : List (String × String)
  body : JValue

/-- The `json(statusCode, data)` response helper. -/
def json (statusCode : Nat) (data : JValue) : Response :=
  ⟨statusCode, corsHeaders, data⟩

/-- Character class `[A-Za-z0-9_.-]` of the path-id pattern. -/
def isIdChar (c : Char) : Bool :=
  c.isAlphanum || c = '_' || c = '.' || c = '-'

/-- `String.startsWith`, computed on the character lists. -/
def strStartsWith (s p : String) : Bool :=
  p.toList.isPrefixOf s.toList

/-- `getIdFromPath`: match the path against the anchored regular
expression `^/items/([A-Za-z0-9_.\-]+)$` and return the captured id
(the whole path is the literal prefix `/items/` followed by one or more
characters of the id class). -/
def getIdFromPath (path : String) : Option String :=
  if strStartsWith path "/items/" then
    let rest := String.mk (path.toList.drop 7)
    if rest ≠ "" ∧ rest.toList.all isIdChar then some rest else none
  else
    none

/-- The raw body text: `event.body || ""`, base64-decoded when
`event.isBase64Encoded` is set. -/
def decodeBody (env : Env) (event : Event) : String :=
  let raw := jsOr event.body ""
  if event.isBase64Encoded then env.b64decode raw else raw

/-- `body = bodyText ? JSON.parse(bodyText) : {}`, with `none` for the
caught parse error. -/
def parsedBody (env : Env) (event : Event) : Option JValue :=
  let bodyText := decodeBody env event
  if bodyText = "" then some (.obj []) else env.parseJSON bodyText

/-- The error-response payload `{ error: err.name || "Error", message:
err.message || String(err) }`. -/
def errorBody (e : StoreErr) : JValue :=
  .obj [("error", .str (jsOrStr e.name "Error")),
        ("message", .str (jsOrStr e.message e.asString))]

def badRequestBody (message : String) : JValue :=
  .obj [("error", .str "BadRequest"), ("message", .str message)]

def notFoundBody : JValue :=
  .obj [("error", .str "NotFound"), ("message", .str "Item not found")]

/-- `{ k: v }` under `JSON.stringify`: an `undefined` value drops the
key entirely. -/
def optField (k : String) (v : Option JValue) : List (String × JValue) :=
  match v with
  | none => []
  | some x => [(k, x)]

/-- CREATE (`POST /items`): parse the body, build
`{ id: randomUUID(), createdAt: now, ...body }`, put it. -/
def createBranch (env : Env) (send : Command → SendResult) (event : Event) :
    Response × List Command :=
  match parsedBody env event with
  | none => (json 400 (badRequestBody "Body must be valid JSON"), [])
  | some body =>
    let item := jsSpread
      [("id", .str env.randomUUID), ("createdAt", .str env.nowISO)] body
    let cmd := Command.put env.table item
    match send cmd with
    | .ok _ => (json 201 (.obj [("ok", .bool true), ("item", .obj item)]), [cmd])
    | .error e => (json 500 (errorBody e), [cmd])

/-- `res.Items?.length || 0` (a zero length is falsy but the fallback is
also `0`, so this is the length of the list, or `0` when absent). -/
def scanCount (items : Option (List JValue)) : Int :=
  match items with
  | none => 0
  | some l => l.length

/-- LIST (`GET /items`): bounded scan with `Limit: 20`. -/
def listBranch (env : Env) (send : Command → SendResult) :
    Response × List Command :=
  let cmd := Command.scan env.table 20
  match send cmd with
  | .ok r =>
      (json 200 (.obj [("ok", .bool true),
                       ("count", .num (scanCount r.Items)),
                       ("items", .arr (r.Items.getD []))]), [cmd])
  | .error e => (json 500 (errorBody e), [cmd])

/-- READ ONE (`GET /items/{id}`): point lookup; absent item is 404. -/
def readOneBranch (env : Env) (send : Command → SendResult) (path : String) :
    Response × List Command :=
  match getIdFromPath path with
  | none => (json 400 (badRequestBody "Missing or invalid id in path"), [])
  | some id =>
    let cmd := Command.get env.table [("id", .str id)]
    match send cmd with
    | .ok r =>
        match r.Item with
        | none => (json 404 notFoundBody, [cmd])
        | some it => (json 200 (.obj [("ok", .bool true), ("item", it)]), [cmd])
    | .error e => (json 500 (errorBody e), [cmd])

/-- The `keys.forEach((k, i) => ...)` loop of the update branch: from
the remaining entries, starting at index `i`, build
`exprNames` (`#ki ↦ k`), `exprValues` (`:vi ↦ body[k]`) and the `sets`
clauses `"#ki = :vi"`, each in iteration order.  The source reads
`body[k]` for each key `k` of `Object.keys(body)`; since a JS object's
keys are unique this is the value paired with `k` in the entry list. -/
def buildUpdateArgs : List (String × JValue) → Nat →
    List (String × String) × List (String × JValue) × List String
  | [], _ => ([], [], [])
  | (k, v) :: rest, i =>
    let r := buildUpdateArgs rest (i + 1)
    (("#k" ++ toString i, k) :: r.1,
     (":v" ++ toString i, v) :: r.2.1,
     ("#k" ++ toString i ++ " = :v" ++ toString i) :: r.2.2)

/-- UPDATE (`PUT /items/{id}`): validate the id, parse the body, drop
the protected fields `id` and `createdAt` (`delete body.id; delete
body.createdAt` removes them when `body` is an object and is a no-op on
other non-null values; on `null` the member access throws an uncaught
`TypeError`, modelled as `none`), reject an empty remaining key set,
otherwise issue a conditional update built from placeholders. -/
def updateBranch (env : Env) (send : Command → SendResult) (event : Event)
    (path : String) : Option (Response × List Command) :=
  match getIdFromPath path with
  | none => some (json 400 (badRequestBody "Missing or invalid id in path"), [])
  | some id =>
    match parsedBody env event with
    | none => some (json 400 (badRequestBody "Body must be valid JSON"), [])
    | some .null => none
    | some body =>
      let fields := (jsOwnEntries body).filter
        (fun kv => ¬(kv.1 = "id" ∨ kv.1 = "createdAt"))
      if fields.isEmpty then
        some (json 400 (badRequestBody "No updatable fields provided"), [])
      else
        let args := buildUpdateArgs fields 0
        let cmd := Command.update env.table [("id", .str id)]
          ("SET " ++ String.intercalate ", " args.2.2)
          args.1 args.2.1 "attribute_exists(id)" "ALL_NEW"
        match send cmd with
        | .ok r =>
            some (json 200 (.obj ([("ok", .bool true)] ++
              optField "item" r.Attributes)), [cmd])
        | .error e =>
            if e.name = "ConditionalCheckFailedException" then
              some (json 404 notFoundBody, [cmd])
            else
              some (json 500 (errorBody e), [cmd])

/-- DELETE (`DELETE /items/{id}`): conditional delete returning the
prior value. -/
def deleteBranch (env : Env) (send : Command → SendResult) (path : String) :
    Response × List Command :=
  match getIdFromPath path with
  | none => (json 400 (badRequestBody "Missing or invalid id in path"), [])
  | some id =>
    let cmd := Command.delete env.table [("id", .str id)]
      "attribute_exists(id)" "ALL_OLD"
    match send cmd with
    | .ok r =>
        (json 200 (.obj ([("ok", .bool true)] ++
          optField "deleted" r.Attributes)), [cmd])
    | .error e =>
        if e.name = "ConditionalCheckFailedException" then
          (json 404 notFoundBody, [cmd])
        else
          (json 500 (errorBody e), [cmd])

/-- The Lambda handler: normalize method and path with their fallbacks,
then dispatch through the fixed route chain of the source.  The result
is `none` exactly when the JS code would throw an uncaught exception
(only the `PUT` branch with a JSON-`null` body); otherwise it is the
response paired with the list of store commands issued. -/
def handler (env : Env) (send : Command → SendResult) (event : Event) :
    Option (Response × List Command) :=
  let method := jsOr event.method "GET"
  let path := jsOr event.rawPath "/"
  if path = "/health" then
    some (json 200 (.obj [("ok", .bool true), ("table", .str env.table),
                          ("time", .str env.nowISO)]), [])
  else if method = "OPTIONS" then
    some (json 204 (.obj []), [])
  else if method = "POST" ∧ path = "/items" then
    some (createBranch env send event)
  else if method = "GET" ∧ path = "/items" then
    some (listBranch env send)
  else if method = "GET" ∧ strStartsWith path "/items/" then
    some (readOneBranch env send path)
  else if method = "PUT" ∧ strStartsWith path "/items/" then
    updateBranch env send event path
  else if method = "DELETE" ∧ strStartsWith path "/items/" then
    some (deleteBranch env send path)
  else
    some (json 404 (.obj [("error", .str "NotFound"),
      ("message", .str (method ++ " " ++ path ++ " not handled"))]), [])

/-! ## The key-value store collaborator

The store itself is not part of the repository; the definitions below
follow the collaborator contract of the specification (atomic put / get
/ scan and conditional update / delete that fail distinguishably, with
a `ConditionalCheckFailedException`-named error, when the existence
condition does not hold, leaving the table unchanged). -/

/-- Modelled from the spec: the store's table, an id-keyed collection
of items (the store itself is an external collaborator, absent from
the source tree). -/
abbrev Table := List (String × List (String × JValue))

def tableGet (t : Table) (id : String) : Option (List (String × JValue)) :=
  (t.find? (fun p => p.1 = id)).map Prod.snd

def tableSet (t : Table) (id : String) (item : List (String × JValue)) : Table :=
  if t.any (fun p => p.1 = id) then
    t.map (fun p => if p.1 = id then (id, item) else p)
  else
    t ++ [(id, item)]

def tableRemove (t : Table) (id : String) : Table :=
  t.filter (fun p => ¬(p.1 = id))

/-- The error a conditional write raises when its condition fails. -/
def conditionalCheckErr : StoreErr :=
  ⟨"ConditionalCheckFailedException", "The conditional request failed",
   "ConditionalCheckFailedException: The conditional request failed"⟩

def validationErr : StoreErr :=
  ⟨"ValidationException", "Invalid request", "ValidationException: Invalid request"⟩

/-- The string id carried in a `Key: { id }` parameter. -/
def keyId (key : List (String × JValue)) : Option String :=
  match key.find? (fun p => p.1 = "id") with
  | some (_, .str s) => some s
  | _ => none

/-- Modelled from the spec: apply a parameterized assignment list to an
item.  The router emits the name placeholders `#ki` and value
placeholders `:vi` in lockstep, so they are resolved positionally. -/
def applyAssignments (item : List (String × JValue))
    (names : List (String × String)) (vals : List (String × JValue)) :
    List (String × JValue) :=
  (names.zip vals).foldl (fun acc p => jsSet acc p.1.2 p.2.2) item

/-- Modelled from the spec: one store command against a table —
unconditional put keyed by the item's `id`, bounded scan, point get,
and conditional update/delete that fail with a
`ConditionalCheckFailedException` and leave the table unchanged when
the target id is absent. -/
def ddbStep (t : Table) : Command → SendResult × Table
  | .put _ item =>
    match (item.find? (fun p => p.1 = "id")).map Prod.snd with
    | some (.str s) => (.ok ⟨none, none, none⟩, tableSet t s item)
    | _ => (.error validationErr, t)
  | .scan _ limit =>
    (.ok ⟨some ((t.take limit).map (fun p => .obj p.2)), none, none⟩, t)
  | .get _ key =>
    match keyId key with
    | some s => (.ok ⟨none, (tableGet t s).map .obj, none⟩, t)
    | none => (.error validationErr, t)
  | .update _ key _ names vals _ _ =>
    match keyId key with
    | none => (.error validationErr, t)
    | some s =>
      match tableGet t s with
      | none => (.error conditionalCheckErr, t)
      | some item =>
        let newItem := applyAssignments item names vals
        (.ok ⟨none, none, some (.obj newItem)⟩, tableSet t s newItem)
  | .delete _ key _ _ =>
    match keyId key with
    | none => (.error validationErr, t)
    | some s =>
      match tableGet t s with
      | none => (.error conditionalCheckErr, t)
      | some item => (.ok ⟨none, none, some (.obj item)⟩, tableRemove t s)

/-- The send oracle presented to the handler by a store holding `t`. -/
def ddbSend (t : Table) : Command → SendResult :=
  fun c => (ddbStep t c).1

/-- The table after the store has executed a list of commands. -/
def ddbRun (t : Table) (cmds : List Command) : Table :=
  cmds.foldl (fun acc c => (ddbStep acc c).2) t

/-! ## Path and routing lemmas -/

theorem strStartsWith_ne_health {path : String}
    (h : strStartsWith path "/items/" = true) : path ≠ "/health" := by
  intro e
  subst e
  exact absurd h (by decide)

theorem strStartsWith_ne_items {path : String}
    (h : strStartsWith path "/items/" = true) : path ≠ "/items" := by
  intro e
  subst e
  exact absurd h (by decide)

theorem getId_startsWith {path id : String}
    (h : getIdFromPath path = some id) :
    strStartsWith path "/items/" = true := by
  unfold getIdFromPath at h
  by_cases hs : strStartsWith path "/items/"
  · exact hs
  · simp [hs] at h

/-- A request whose effective method is `PUT` and whose effective path
starts with `/items/` is handled by the update branch. -/
theorem handler_route_put (env : Env) (send : Command → SendResult)
    (event : Event) (path : String)
    (hm : jsOr event.method "GET" = "PUT")
    (hp : jsOr event.rawPath "/" = path)
    (hsw : strStartsWith path "/items/" = true) :
    handler env send event = updateBranch env send event path := by
  have hh : path ≠ "/health" := strStartsWith_ne_health hsw
  have hi : path ≠ "/items" := strStartsWith_ne_items hsw
  simp only [handler, hm, hp]
  simp [hh, hi, hsw]

/-- A request whose effective method is `DELETE` and whose effective
path starts with `/items/` is handled by the delete branch. -/
theorem handler_route_delete (env : Env) (send : Command → SendResult)
    (event : Event) (path : String)
    (hm : jsOr event.method "GET" = "DELETE")
    (hp : jsOr event.rawPath "/" = path)
    (hsw : strStartsWith path "/items/" = true) :
    handler env send event = some (deleteBranch env send path) := by
  have hh : path ≠ "/health" := strStartsWith_ne_health hsw
  have hi : path ≠ "/items" := strStartsWith_ne_items hsw
  simp only [handler, hm, hp]
  simp [hh, hi, hsw]

/-! ## Claims -/

/-- C7: every request whose path is exactly `/health`, whatever the
method (so also `OPTIONS`: this route precedes the preflight check),
returns 200 with `ok: true`, the configured table name and the current
timestamp, and issues no store command. -/
theorem health_route_always_200 (env : Env) (send : Command → SendResult)
    (event : Event) (hp : jsOr event.rawPath "/" = "/health") :
    handler env send event =
      some (json 200 (.obj [("ok", .bool true), ("table", .str env.table),
        ("time", .str env.nowISO)]), []) := by
  simp only [handler, hp]
  simp

theorem health_route_always_200_witness :
    handler ⟨"DemoItems", "u1", "t1", fun _ => none, fun s => s⟩
      (fun _ => .error ⟨"X", "Y", "Z"⟩)
      ⟨some "OPTIONS", some "/health", none, false⟩ =
      some (json 200 (.obj [("ok", .bool true), ("table", .str "DemoItems"),
        ("time", .str "t1")]), []) :=
  health_route_always_200 _ _ _ (by decide)

/-- C4: an `OPTIONS` request to any path other than the
higher-precedence `/health` returns 204 with the empty JSON object as
body (`json(204, {})` — the "empty" preflight response) and issues no
store command, for every store oracle. -/
theorem options_preflight_204 (env : Env) (send : Command → SendResult)
    (event : Event)
    (hm : jsOr event.method "GET" = "OPTIONS")
    (hp : jsOr event.rawPath "/" ≠ "/health") :
    handler env send event = some (json 204 (.obj []), []) := by
  simp only [handler, hm]
  simp [hp]

theorem options_preflight_204_witness :
    handler ⟨"DemoItems", "u1", "t1", fun _ => none, fun s => s⟩
      (fun _ => .error ⟨"X", "Y", "Z"⟩)
      ⟨some "OPTIONS", some "/items/abc", none, false⟩ =
      some (json 204 (.obj []), []) :=
  options_preflight_204 _ _ _ (by decide) (by decide)

/-- C9: a request matching no route — path not `/health`, method not
`OPTIONS`, and no method+path combination of the route table — falls
through to the 404 response whose message is
`<method> <path> not handled`, with no store command issued. -/
theorem fallback_unmatched_404 (env : Env) (send : Command → SendResult)
    (event : Event)
    (h1 : jsOr event.rawPath "/" ≠ "/health")
    (h2 : jsOr event.method "GET" ≠ "OPTIONS")
    (h3 : ¬(jsOr event.method "GET" = "POST" ∧ jsOr event.rawPath "/" = "/items"))
    (h4 : ¬(jsOr event.method "GET" = "GET" ∧ jsOr event.rawPath "/" = "/items"))
    (h5 : ¬(jsOr event.method "GET" = "GET" ∧
        strStartsWith (jsOr event.rawPath "/") "/items/" = true))
    (h6 : ¬(jsOr event.method "GET" = "PUT" ∧
        strStartsWith (jsOr event.rawPath "/") "/items/" = true))
    (h7 : ¬(jsOr event.method "GET" = "DELETE" ∧
        strStartsWith (jsOr event.rawPath "/") "/items/" = true)) :
    handler env send event =
      some (json 404 (.obj [("error", .str "NotFound"),
        ("message", .str (jsOr event.method "GET" ++ " " ++
          jsOr event.rawPath "/" ++ " not handled"))]), []) := by
  simp only [handler]
  simp [h1, h2, h3, h4, h5, h6, h7]

theorem fallback_unmatched_404_witness :
    handler ⟨"DemoItems", "u1", "t1", fun _ => none, fun s => s⟩
      (fun _ => .error ⟨"X", "Y", "Z"⟩)
      ⟨some "PATCH", some "/items", none, false⟩ =
      some (json 404 (.obj [("error", .str "NotFound"),
        ("message", .str "PATCH /items not handled")]), []) :=
  fallback_unmatched_404 _ _ _ (by decide) (by decide) (by decide) (by decide)
    (by decide) (by decide) (by decide)

/-- C10: an absent HTTP method defaults to `GET` and an absent raw path
defaults to `/`: an event with no method and path `/items` is handled
as a list request (one scan command, limit 20), and a fully empty event
reaches the fallback with message `GET / not handled`. -/
theorem absent_method_path_defaults (env : Env) (items : List JValue) :
    handler env (fun _ => .ok ⟨some items, none, none⟩)
        ⟨none, some "/items", none, false⟩ =
      some (json 200 (.obj [("ok", .bool true),
        ("count", .num items.length), ("items", .arr items)]),
        [Command.scan env.table 20])
    ∧ (∀ send : Command → SendResult, handler env send ⟨none, none, none, false⟩ =
        some (json 404 (.obj [("error", .str "NotFound"),
          ("message", .str "GET / not handled")]), [])) := by
  constructor
  · simp [handler, jsOr, listBranch, scanCount]
  · intro send
    simp [handler, jsOr, (by decide : strStartsWith "/" "/items/" = false)]

/-- C6: a `GET`, `PUT` or `DELETE` request whose path starts with
`/items/` but does not match the anchored id pattern is answered with
400 `BadRequest` (never 404 or 500) and issues no store command. -/
theorem invalid_item_path_id_400 (env : Env) (send : Command → SendResult)
    (event : Event) (m path : String)
    (hm : jsOr event.method "GET" = m)
    (hmem : m = "GET" ∨ m = "PUT" ∨ m = "DELETE")
    (hp : jsOr event.rawPath "/" = path)
    (hsw : strStartsWith path "/items/" = true)
    (hbad : getIdFromPath path = none) :
    handler env send event =
      some (json 400 (badRequestBody "Missing or invalid id in path"), []) := by
  have hh : path ≠ "/health" := strStartsWith_ne_health hsw
  have hi : path ≠ "/items" := strStartsWith_ne_items hsw
  rcases hmem with h | h | h <;> subst h <;> simp only [handler, hm, hp] <;>
    simp [hh, hi, hsw, readOneBranch, updateBranch, deleteBranch, hbad]

theorem invalid_item_path_id_400_witness :
    handler ⟨"DemoItems", "u1", "t1", fun _ => none, fun s => s⟩
      (fun _ => .error ⟨"X", "Y", "Z"⟩)
      ⟨some "PUT", some "/items/abc def", none, false⟩ =
      some (json 400 (badRequestBody "Missing or invalid id in path"), []) :=
  invalid_item_path_id_400 _ _ _ "PUT" "/items/abc def" (by decide)
    (Or.inr (Or.inl rfl)) (by decide) (by decide) (by decide)

/-- C5: a create request whose decoded body is non-empty and fails
JSON parsing yields 400 `BadRequest` with message
`Body must be valid JSON` and issues no store command; an empty decoded
body is treated as the empty JSON object, so the put stores exactly the
two server-set fields. -/
theorem create_bad_json_400 (env : Env) (send : Command → SendResult)
    (event : Event)
    (hm : jsOr event.method "GET" = "POST")
    (hp : jsOr event.rawPath "/" = "/items") :
    (decodeBody env event ≠ "" → env.parseJSON (decodeBody env event) = none →
      handler env send event =
        some (json 400 (badRequestBody "Body must be valid JSON"), []))
    ∧ (decodeBody env event = "" →
      (handler env send event).map Prod.snd =
        some [Command.put env.table
          [("id", .str env.randomUUID), ("createdAt", .str env.nowISO)]]) := by
  have hroute : handler env send event = some (createBranch env send event) := by
    simp only [handler, hm, hp]
    simp
  constructor
  · intro h1 h2
    rw [hroute]
    simp only [createBranch, parsedBody]
    simp [h1, h2]
  · intro h0
    rw [hroute]
    simp only [createBranch, parsedBody]
    simp only [h0, if_pos]
    rcases hs : send (Command.put env.table
        (jsSpread [("id", .str env.randomUUID),
          ("createdAt", .str env.nowISO)] (.obj []))) with r | e <;>
      simp [hs, jsSpread, jsOwnEntries]

theorem create_bad_json_400_witness :
    (decodeBody ⟨"DemoItems", "u1", "t1", fun _ => none, fun s => s⟩
        ⟨some "POST", some "/items", some "X", false⟩ ≠ "" →
      (fun _ => none : String → Option JValue)
        (decodeBody ⟨"DemoItems", "u1", "t1", fun _ => none, fun s => s⟩
          ⟨some "POST", some "/items", some "X", false⟩) = none →
      handler ⟨"DemoItems", "u1", "t1", fun _ => none, fun s => s⟩
        (fun _ => .error ⟨"X", "Y", "Z"⟩)
        ⟨some "POST", some "/items", some "X", false⟩ =
        some (json 400 (badRequestBody "Body must be valid JSON"), []))
    ∧ (decodeBody ⟨"DemoItems", "u1", "t1", fun _ => none, fun s => s⟩
        ⟨some "POST", some "/items", some "X", false⟩ = "" →
      (handler ⟨"DemoItems", "u1", "t1", fun _ => none, fun s => s⟩
        (fun _ => .error ⟨"X", "Y", "Z"⟩)
        ⟨some "POST", some "/items", some "X", false⟩).map Prod.snd =
        some [Command.put "DemoItems"
          [("id", .str "u1"), ("createdAt", .str "t1")]]) :=
  create_bad_json_400 _ _ _ (by decide) (by decide)

/-! ## Update-expression construction lemmas -/

theorem buildUpdateArgs_names (fs : List (String × JValue)) (i : Nat) :
    (buildUpdateArgs fs i).1 =
      (List.enumFrom i fs).map (fun p => ("#k" ++ toString p.1, p.2.1)) := by
  induction fs generalizing i with
  | nil => rfl
  | cons kv rest ih => simp [buildUpdateArgs, List.enumFrom, ih]

theorem buildUpdateArgs_values (fs : List (String × JValue)) (i : Nat) :
    (buildUpdateArgs fs i).2.1 =
      (List.enumFrom i fs).map (fun p => (":v" ++ toString p.1, p.2.2)) := by
  induction fs generalizing i with
  | nil => rfl
  | cons kv rest ih => simp [buildUpdateArgs, List.enumFrom, ih]

/-- The `sets` clauses depend only on the number of remaining keys:
they are pure placeholder text, with no key or value interpolated. -/
theorem buildUpdateArgs_sets (fs : List (String × JValue)) (i : Nat) :
    (buildUpdateArgs fs i).2.2 =
      (List.range' i fs.length).map
        (fun j => "#k" ++ toString j ++ " = :v" ++ toString j) := by
  induction fs generalizing i with
  | nil => rfl
  | cons kv rest ih => simp [buildUpdateArgs, List.range'_succ, ih]

/-- Every emitted expression-attribute name maps its placeholder to one
of the remaining body keys. -/
theorem buildUpdateArgs_names_keys (fs : List (String × JValue)) (i : Nat)
    (p : String × String) (hp : p ∈ (buildUpdateArgs fs i).1) :
    p.2 ∈ fs.map Prod.fst := by
  induction fs generalizing i with
  | nil => simp [buildUpdateArgs] at hp
  | cons kv rest ih =>
    simp only [buildUpdateArgs, List.mem_cons] at hp
    rcases hp with h | h
    · subst h
      simp
    · simp [ih _ h]

/-- When every remaining key avoids the protected fields, so does
every emitted placeholder substitution. -/
theorem buildUpdateArgs_keys_prop (fs : List (String × JValue)) (i : Nat)
    (q : String × String) (hq : q ∈ (buildUpdateArgs fs i).1)
    (hfs : ∀ kv ∈ fs, kv.1 ≠ "id" ∧ kv.1 ≠ "createdAt") :
    q.2 ≠ "id" ∧ q.2 ≠ "createdAt" := by
  have h := buildUpdateArgs_names_keys _ _ _ hq
  rcases List.mem_map.mp h with ⟨kv, hkv, hkq⟩
  rw [← hkq]
  exact hfs kv hkv

/-- C2: on an update with a valid id and a JSON-object body, the
protected keys `id` and `createdAt` are dropped before the store call
(every issued command is a conditional update whose attribute-name
substitutions avoid both), and when nothing remains after dropping them
the handler returns 400 `No updatable fields provided` with no store
command at all — the stored item is untouched. -/
theorem update_strips_protected_fields (env : Env)
    (send : Command → SendResult) (event : Event) (path id : String)
    (fields : List (String × JValue))
    (hm : jsOr event.method "GET" = "PUT")
    (hp : jsOr event.rawPath "/" = path)
    (hid : getIdFromPath path = some id)
    (hbody : parsedBody env event = some (.obj fields)) :
    (fields.filter (fun kv => ¬(kv.1 = "id" ∨ kv.1 = "createdAt")) = [] →
      handler env send event =
        some (json 400 (badRequestBody "No updatable fields provided"), []))
    ∧ (∀ c ∈ ((handler env send event).map Prod.snd).getD [],
        ∃ expr names vals,
          c = Command.update env.table [("id", .str id)] expr names vals
            "attribute_exists(id)" "ALL_NEW" ∧
          ∀ q ∈ names, q.2 ≠ "id" ∧ q.2 ≠ "createdAt") := by
  have hroute := handler_route_put env send event path hm hp (getId_startsWith hid)
  rw [hroute]
  simp only [updateBranch, hid, hbody, jsOwnEntries]
  constructor
  · intro hfil
    rw [hfil]
    simp
  · intro c hc
    split at hc
    · simp at hc
    · split at hc
      · simp at hc
        subst hc
        exact ⟨_, _, _, rfl, fun q hq => buildUpdateArgs_keys_prop _ _ q hq
          (fun kv hkv => by have hf := List.of_mem_filter hkv; simp at hf; exact hf)⟩
      · split at hc <;> simp at hc <;> subst hc <;>
          exact ⟨_, _, _, rfl, fun q hq => buildUpdateArgs_keys_prop _ _ q hq
            (fun kv hkv => by have hf := List.of_mem_filter hkv; simp at hf; exact hf)⟩

theorem update_strips_protected_fields_witness :
    ([("id", JValue.str "evil"), ("createdAt", JValue.str "z")].filter
        (fun kv => ¬(kv.1 = "id" ∨ kv.1 = "createdAt")) = [] →
      handler ⟨"DemoItems", "u1", "t1",
          fun s => if s = "P" then
            some (.obj [("id", .str "evil"), ("createdAt", .str "z")])
          else none,
          fun s => s⟩
        (fun _ => .error ⟨"X", "Y", "Z"⟩)
        ⟨some "PUT", some "/items/x1", some "P", false⟩ =
        some (json 400 (badRequestBody "No updatable fields provided"), []))
    ∧ (∀ c ∈ ((handler ⟨"DemoItems", "u1", "t1",
          fun s => if s = "P" then
            some (.obj [("id", .str "evil"), ("createdAt", .str "z")])
          else none,
          fun s => s⟩
        (fun _ => .error ⟨"X", "Y", "Z"⟩)
        ⟨some "PUT", some "/items/x1", some "P", false⟩).map Prod.snd).getD [],
        ∃ expr names vals,
          c = Command.update "DemoItems" [("id", .str "x1")] expr names vals
            "attribute_exists(id)" "ALL_NEW" ∧
          ∀ q ∈ names, q.2 ≠ "id" ∧ q.2 ≠ "createdAt") :=
  update_strips_protected_fields _ _ _ "/items/x1" "x1"
    [("id", JValue.str "evil"), ("createdAt", JValue.str "z")]
    (by decide) (by decide) (by decide) rfl

/-- C8: on an update with a valid id, a JSON-object body and a
non-empty remaining key set, exactly one store command is issued: a
conditional update whose expression text is pure placeholder text
determined only by the number of keys
(`SET #k0 = :v0, ..., #k(n-1) = :v(n-1)`), with the i-th name
placeholder substituted by the i-th remaining key and the i-th value
placeholder by its value, in insertion order — keys and values are
never interpolated into the expression text. -/
theorem update_expression_uses_placeholders (env : Env)
    (send : Command → SendResult) (event : Event) (path id : String)
    (fields : List (String × JValue))
    (hm : jsOr event.method "GET" = "PUT")
    (hp : jsOr event.rawPath "/" = path)
    (hid : getIdFromPath path = some id)
    (hbody : parsedBody env event = some (.obj fields))
    (hne : fields.filter (fun kv => ¬(kv.1 = "id" ∨ kv.1 = "createdAt")) ≠ []) :
    (handler env send event).map Prod.snd =
      some [Command.update env.table [("id", .str id)]
        ("SET " ++ String.intercalate ", "
          ((List.range (fields.filter
              (fun kv => ¬(kv.1 = "id" ∨ kv.1 = "createdAt"))).length).map
            (fun i => "#k" ++ toString i ++ " = :v" ++ toString i)))
        ((fields.filter (fun kv => ¬(kv.1 = "id" ∨ kv.1 = "createdAt"))).enum.map
          (fun p => ("#k" ++ toString p.1, p.2.1)))
        ((fields.filter (fun kv => ¬(kv.1 = "id" ∨ kv.1 = "createdAt"))).enum.map
          (fun p => (":v" ++ toString p.1, p.2.2)))
        "attribute_exists(id)" "ALL_NEW"] := by
  have hroute := handler_route_put env send event path hm hp (getId_startsWith hid)
  rw [hroute]
  simp only [updateBranch, hid, hbody, jsOwnEntries]
  rw [if_neg (fun h => hne (List.isEmpty_iff.mp h))]
  split <;> (try split) <;>
    simp [buildUpdateArgs_names, buildUpdateArgs_values, buildUpdateArgs_sets,
      List.range_eq_range', List.enum]

theorem update_expression_uses_placeholders_witness :
    (handler ⟨"DemoItems", "u1", "t1",
        fun s => if s = "P" then
          some (.obj [("b", .num 1), ("a", .str "x"), ("id", .num 9)])
        else none,
        fun s => s⟩
      (fun _ => .ok ⟨none, none, none⟩)
      ⟨some "PUT", some "/items/x1", some "P", false⟩).map Prod.snd =
      some [Command.update "DemoItems" [("id", .str "x1")]
        "SET #k0 = :v0, #k1 = :v1"
        [("#k0", "b"), ("#k1", "a")]
        [(":v0", .num 1), (":v1", .str "x")]
        "attribute_exists(id)" "ALL_NEW"] :=
  (update_expression_uses_placeholders
    ⟨"DemoItems", "u1", "t1",
      fun s => if s = "P" then
        some (.obj [("b", .num 1), ("a", .str "x"), ("id", .num 9)])
      else none,
      fun s => s⟩
    (fun _ => .ok ⟨none, none, none⟩)
    ⟨some "PUT", some "/items/x1", some "P", false⟩ "/items/x1" "x1"
    [("b", JValue.num 1), ("a", JValue.str "x"), ("id", JValue.num 9)]
    (by decide) (by decide) (by decide) rfl (by simp)).trans rfl

/-- C3: for update and delete requests with a valid id, a store
conditional-check failure (the item does not exist, per the store
contract modelled by `ddbStep`) maps to 404 `NotFound` with message
`Item not found`, and the issued commands leave the store's table
unchanged; any other store failure maps to 500 carrying the
store-reported error name as the kind and the store-reported message
verbatim. -/
theorem update_delete_store_error_mapping (env : Env) (table : Table)
    (eventU eventD : Event) (path id : String)
    (fields : List (String × JValue)) (e : StoreErr)
    (hmU : jsOr eventU.method "GET" = "PUT")
    (hpU : jsOr eventU.rawPath "/" = path)
    (hmD : jsOr eventD.method "GET" = "DELETE")
    (hpD : jsOr eventD.rawPath "/" = path)
    (hid : getIdFromPath path = some id)
    (hbody : parsedBody env eventU = some (.obj fields))
    (hne : fields.filter (fun kv => ¬(kv.1 = "id" ∨ kv.1 = "createdAt")) ≠ [])
    (habs : tableGet table id = none)
    (hen : e.name ≠ "ConditionalCheckFailedException")
    (hen2 : e.name ≠ "") (hem : e.message ≠ "") :
    ((handler env (ddbSend table) eventU).map
        (fun r => (r.1, ddbRun table r.2)) =
      some (json 404 notFoundBody, table))
    ∧ ((handler env (ddbSend table) eventD).map
        (fun r => (r.1, ddbRun table r.2)) =
      some (json 404 notFoundBody, table))
    ∧ ((handler env (fun _ => .error e) eventU).map Prod.fst =
      some (json 500 (.obj [("error", .str e.name),
        ("message", .str e.message)])))
    ∧ ((handler env (fun _ => .error e) eventD).map Prod.fst =
      some (json 500 (.obj [("error", .str e.name),
        ("message", .str e.message)]))) := by
  have hsw := getId_startsWith hid
  refine ⟨?_, ?_, ?_, ?_⟩
  · rw [handler_route_put env (ddbSend table) eventU path hmU hpU hsw]
    simp only [updateBranch, hid, hbody, jsOwnEntries]
    rw [if_neg (fun h => hne (List.isEmpty_iff.mp h))]
    simp [ddbSend, ddbStep, keyId, List.find?, habs, ddbRun, conditionalCheckErr]
  · rw [handler_route_delete env (ddbSend table) eventD path hmD hpD hsw]
    simp only [deleteBranch, hid]
    simp [ddbSend, ddbStep, keyId, List.find?, habs, ddbRun, conditionalCheckErr]
  · rw [handler_route_put env (fun _ => .error e) eventU path hmU hpU hsw]
    simp only [updateBranch, hid, hbody, jsOwnEntries]
    rw [if_neg (fun h => hne (List.isEmpty_iff.mp h))]
    simp [hen, errorBody, jsOrStr, hen2, hem]
  · rw [handler_route_delete env (fun _ => .error e) eventD path hmD hpD hsw]
    simp only [deleteBranch, hid]
    simp [hen, errorBody, jsOrStr, hen2, hem]

theorem update_delete_store_error_mapping_witness :
    ((handler ⟨"DemoItems", "u1", "t1",
        fun s => if s = "P" then some (.obj [("a", .num 1)]) else none,
        fun s => s⟩ (ddbSend [])
        ⟨some "PUT", some "/items/x1", some "P", false⟩).map
        (fun r => (r.1, ddbRun [] r.2)) =
      some (json 404 notFoundBody, []))
    ∧ ((handler ⟨"DemoItems", "u1", "t1",
        fun s => if s = "P" then some (.obj [("a", .num 1)]) else none,
        fun s => s⟩ (ddbSend [])
        ⟨some "DELETE", some "/items/x1", none, false⟩).map
        (fun r => (r.1, ddbRun [] r.2)) =
      some (json 404 notFoundBody, []))
    ∧ ((handler ⟨"DemoItems", "u1", "t1",
        fun s => if s = "P" then some (.obj [("a", .num 1)]) else none,
        fun s => s⟩
        (fun _ => .error ⟨"InternalServerError", "boom", "ise: boom"⟩)
        ⟨some "PUT", some "/items/x1", some "P", false⟩).map Prod.fst =
      some (json 500 (.obj [("error", .str "InternalServerError"),
        ("message", .str "boom")])))
    ∧ ((handler ⟨"DemoItems", "u1", "t1",
        fun s => if s = "P" then some (.obj [("a", .num 1)]) else none,
        fun s => s⟩
        (fun _ => .error ⟨"InternalServerError", "boom", "ise: boom"⟩)
        ⟨some "DELETE", some "/items/x1", none, false⟩).map Prod.fst =
      some (json 500 (.obj [("error", .str "InternalServerError"),
        ("message", .str "boom")]))) :=
  update_delete_store_error_mapping
    ⟨"DemoItems", "u1", "t1",
      fun s => if s = "P" then some (.obj [("a", .num 1)]) else none,
      fun s => s⟩ []
    ⟨some "PUT", some "/items/x1", some "P", false⟩
    ⟨some "DELETE", some "/items/x1", none, false⟩ "/items/x1" "x1"
    [("a", JValue.num 1)] ⟨"InternalServerError", "boom", "ise: boom"⟩
    (by decide) (by decide) (by decide) (by decide) (by decide) rfl
    (by simp) rfl (by decide) (by decide) (by decide)

/-- C1: refutation of the stated invariant as an evaluation of the
code.  The create branch builds the item as
`{ id: randomUUID(), createdAt: now, ...body }`, spreading the client
body last, so client-supplied `id`/`createdAt` values override the
server-generated ones: with a body carrying `id: "client-id"` and
`createdAt: "client-time"`, the stored and echoed item holds the
client's values, not the generated `"server-uuid-1"` /
`"2026-10-11T00:00:00.000Z"`. -/
theorem create_client_body_overrides_server_fields :
    handler ⟨"DemoItems", "server-uuid-1", "2026-10-11T00:00:00.000Z",
        fun s => if s = "A" then
          some (.obj [("id", .str "client-id"),
                      ("createdAt", .str "client-time")])
        else none,
        fun s => s⟩
      (fun _ => .ok ⟨none, none, none⟩)
      ⟨some "POST", some "/items", some "A", false⟩ =
      some (json 201 (.obj [("ok", .bool true),
        ("item", .obj [("id", .str "client-id"),
                       ("createdAt", .str "client-time")])]),
        [Command.put "DemoItems"
          [("id", .str "client-id"), ("createdAt", .str "client-time")]])
      ∧ ("client-id" : String) ≠ "server-uuid-1"
      ∧ ("client-time" : String) ≠ "2026-10-11T00:00:00.000Z" :=
  ⟨rfl, by decide, by decide⟩
